import Mathlib

/-!
Verification of the `sumtype` repository (github.com/JeffreyRichter/sumtype).

The repository implements a discriminated-union ("sum type") pattern for Go:
one canonical JSON struct (`shape`) is aliased, via unsafe pointer casts, by
several structurally identical variant views (`Shape`, `CircleShape`,
`RectangleShape`).  This file shallowly embeds:

* the record storage (`ShapeRec`): the five data fields of the canonical
  `shape` struct, each a Go pointer modelled as `Option`;
* the cast / guarded-read / variant-switch operations from
  `example_sumtypes_test.go` (`Shape`, `Circle`, `Rectangle`, `SetCircle`,
  `SetRectangle`, `ensureKind`) and `Caster.ZeroNonKindFields`;
* the reflection-level layout validator `Caster.validateStructFields` /
  `Caster.ValidateStructFields`, over a small model of Go struct metadata;
* a JSON codec for the canonical record.  The concrete text encoder/decoder
  is the Go standard library (`encoding/json/v2`), which is outside the
  repository; it is modelled from the spec's JSON-Adapter contract
  (declaration-order emission, `omitempty` omission of nil fields, unknown
  keys ignored, parse errors surfaced as values without mutating the target).

Stateful Go methods are embedded in state-passing style: an operation takes
the record storage and returns the (result, post-state) pair.  A Go panic is
modelled by the `GoResult.panicked` constructor carrying the panic message.
-/

/-- Result of a Go operation that can panic: either a normal value or a panic
carrying its message. -/
inductive GoResult (α : Type) where
  | ok (val : α)
  | panicked (msg : String)
deriving DecidableEq

/-- Go `ShapeKind` is a defined string type. -/
abbrev ShapeKind := String

/-- Go constant `CircleShapeKind ShapeKind = "circle"`. -/
def circleKind : ShapeKind := "circle"

/-- Go constant `RectangleShapeKind ShapeKind = "rectangle"`. -/
def rectangleKind : ShapeKind := "rectangle"

/-- The record storage backing the canonical `shape` struct and all of its
variant views.  Go pointer fields (`*string`, `*ShapeKind`, `*int`) are
modelled as `Option`; `none` is a nil pointer.  The zero-size `shapeCaster`
marker field carries no data and is omitted from the storage (it still
occupies field position 0 in the layout metadata below). -/
structure ShapeRec where
  color : Option String
  kind : Option ShapeKind
  radius : Option Int
  width : Option Int
  height : Option Int
deriving DecidableEq

/-- A freshly allocated `shape`: every pointer field is nil. -/
def freshShape : ShapeRec := ⟨none, none, none, none, none⟩

/-- Model of a Go `reflect.Type` as used by the validator: the type's name,
its underlying type (rendered as a string), and its `String()` rendering. -/
structure GoType where
  name : String
  underlying : String
  str : String
deriving DecidableEq

/-- Model of a Go `reflect.StructField`: name, exportedness, type. -/
structure GoField where
  name : String
  exported : Bool
  ty : GoType
deriving DecidableEq

/-- Model of a Go struct type: its name and ordered field list. -/
structure GoStruct where
  name : String
  fields : List GoField
deriving DecidableEq

/-- Default field used with `List.getD` when indexing field lists. -/
def dfltField : GoField := ⟨"", false, ⟨"", "", ""⟩⟩

/-- The `sumtype_test.shapeCaster` type: `type shapeCaster sumtype.Caster[shape]`,
underlying type `struct {}` (written with escaped braces). -/
def goTypeShapeCaster : GoType :=
  ⟨"shapeCaster", "struct \x7b\x7d", "sumtype_test.shapeCaster"⟩

/-- The `sumtype.Caster[shape]` instantiation itself (`reflect.TypeOf(c)` in
`validateStructFields`), underlying type `struct {}`. -/
def goTypeCaster : GoType :=
  ⟨"Caster[shape]", "struct \x7b\x7d", "sumtype.Caster[sumtype_test.shape]"⟩

/-- The Go type `*string` (pointer types are unnamed; underlying is itself). -/
def goTypePtrString : GoType := ⟨"", "*string", "*string"⟩

/-- The Go type `*ShapeKind`. -/
def goTypePtrShapeKind : GoType :=
  ⟨"", "*sumtype_test.ShapeKind", "*sumtype_test.ShapeKind"⟩

/-- The Go type `*int`. -/
def goTypePtrInt : GoType := ⟨"", "*int", "*int"⟩

/-- Layout metadata of the canonical struct `shape`: caster marker then the
five exported data fields, in declaration order. -/
def shapeTy : GoStruct :=
  ⟨"shape",
    [⟨"shapeCaster", false, goTypeShapeCaster⟩,
     ⟨"Color", true, goTypePtrString⟩,
     ⟨"Kind", true, goTypePtrShapeKind⟩,
     ⟨"Radius", true, goTypePtrInt⟩,
     ⟨"Width", true, goTypePtrInt⟩,
     ⟨"Height", true, goTypePtrInt⟩]⟩

/-- Layout metadata of the common view `Shape`: Color and Kind exported, the
three variant-specific positions are blank (`_`, unexported) fields. -/
def ShapeTy : GoStruct :=
  ⟨"Shape",
    [⟨"shapeCaster", false, goTypeShapeCaster⟩,
     ⟨"Color", true, goTypePtrString⟩,
     ⟨"Kind", true, goTypePtrShapeKind⟩,
     ⟨"_", false, goTypePtrInt⟩,
     ⟨"_", false, goTypePtrInt⟩,
     ⟨"_", false, goTypePtrInt⟩]⟩

/-- Layout metadata of the `CircleShape` view: Radius exposed, the rectangle
positions blank. -/
def CircleShapeTy : GoStruct :=
  ⟨"CircleShape",
    [⟨"shapeCaster", false, goTypeShapeCaster⟩,
     ⟨"Color", true, goTypePtrString⟩,
     ⟨"Kind", true, goTypePtrShapeKind⟩,
     ⟨"Radius", true, goTypePtrInt⟩,
     ⟨"_", false, goTypePtrInt⟩,
     ⟨"_", false, goTypePtrInt⟩]⟩

/-- Layout metadata of the `RectangleShape` view: Width and Height exposed,
the radius position blank. -/
def RectangleShapeTy : GoStruct :=
  ⟨"RectangleShape",
    [⟨"shapeCaster", false, goTypeShapeCaster⟩,
     ⟨"Color", true, goTypePtrString⟩,
     ⟨"Kind", true, goTypePtrShapeKind⟩,
     ⟨"_", false, goTypePtrInt⟩,
     ⟨"Width", true, goTypePtrInt⟩,
     ⟨"Height", true, goTypePtrInt⟩]⟩

/-! Decimal rendering of numbers, shared by the validator's `fmt.Errorf`
messages and the JSON integer encoder.  Written with explicit fuel so that
every definition reduces inside the kernel. -/

/-- The ASCII digit character for `d < 10`. -/
def digitChar (d : Nat) : Char := Char.ofNat (48 + d)

/-- Decimal digits of `n`, most significant first; `fuel` bounds recursion
depth (any `fuel > n` is exact). -/
def toDecCharsAux : Nat → Nat → List Char
  | 0, _ => []
  | fuel + 1, n =>
    if n < 10 then [digitChar n]
    else toDecCharsAux fuel (n / 10) ++ [digitChar (n % 10)]

/-- Decimal digits of `n`, most significant first. -/
def toDecChars (n : Nat) : List Char := toDecCharsAux (n + 1) n

/-- Decimal rendering of a natural number (Go `%d`). -/
def natToString (n : Nat) : String := String.mk (toDecChars n)

/-! The layout validator, `Caster.validateStructFields` from the core
package.  Go's `ConvertibleTo` between struct types holding in both
directions is modelled as equality of underlying types. -/

/-- Mutual Go convertibility of two (struct-kind) types: identical underlying
types. -/
def convertibleBoth (a b : GoType) : Bool := a.underlying == b.underlying

/-- The `fmt.Errorf` text for a first-field failure (`%T` prints the caster
type). -/
def firstFieldErrMsg (main : GoStruct) (ct : GoType) : String :=
  "first field of struct " ++ main.name ++
    " must be a type whose underlying type is " ++ ct.str

/-- The `fmt.Errorf` text for a field-count mismatch. -/
def countErrMsg (main other : GoStruct) : String :=
  "structs have different number of fields: " ++ main.name ++ "=" ++
    natToString main.fields.length ++ " vs " ++ other.name ++ "=" ++
    natToString other.fields.length

/-- The `fmt.Errorf` text for a per-position field-type mismatch at index
`k`. -/
def fieldErrMsg (k : Nat) (mname : String) (mf : GoField)
    (oname : String) (od : GoField) : String :=
  "structs have incompatible field #" ++ natToString k ++ ": " ++
    mname ++ "." ++ mf.name ++ " (" ++ mf.ty.str ++ ") vs " ++
    oname ++ "." ++ od.name ++ " (" ++ od.ty.str ++ ")"

/-- The per-position field comparison loop of `validateStructFields`,
carrying the current field index `k`. -/
def checkFieldPairs (mname oname : String) :
    Nat → List GoField → List GoField → Option String
  | _, [], _ => none
  | _, _ :: _, [] => none
  | k, a :: as, b :: bs =>
    if a.ty = b.ty then checkFieldPairs mname oname (k + 1) as bs
    else some (fieldErrMsg k mname a oname b)

/-- Validation of one candidate struct against the canonical one: field-count
check, then the per-position type comparison. -/
def validateOne (main other : GoStruct) : Option String :=
  if main.fields.length ≠ other.fields.length then some (countErrMsg main other)
  else checkFieldPairs main.name other.name 0 main.fields other.fields

/-- Validation of the whole candidate list, returning the first failure. -/
def validateList (main : GoStruct) : List GoStruct → Option String
  | [] => none
  | o :: os =>
    match validateOne main o with
    | some e => some e
    | none => validateList main os

/-- `Caster.validateStructFields`: the first-field convertibility check, then
each candidate in turn.  `reflect`'s `Field(0)` panics on a field-less
struct. -/
def validateStructFields (ct : GoType) (main : GoStruct)
    (others : List GoStruct) : GoResult (Option String) :=
  match main.fields with
  | [] => .panicked "reflect: Field index out of range"
  | f0 :: _ =>
    if convertibleBoth f0.ty ct then .ok (validateList main others)
    else .ok (some (firstFieldErrMsg main ct))

/-- `Caster.ValidateStructFields`: the exported wrapper, panicking with the
error when `panicOnError` is set. -/
def ValidateStructFields (panicOnError : Bool) (ct : GoType) (main : GoStruct)
    (others : List GoStruct) : GoResult (Option String) :=
  match validateStructFields ct main others with
  | .panicked m => .panicked m
  | .ok err =>
    if panicOnError ∧ err.isSome then .panicked (err.getD "") else .ok err

/-- Claim-side layout agreement between two struct descriptions: same field
count and the identical field type at every position. -/
def layoutMatches (main other : GoStruct) : Prop :=
  main.fields.length = other.fields.length ∧
    ∀ i, i < main.fields.length →
      (main.fields.getD i dfltField).ty = (other.fields.getD i dfltField).ty

instance (main other : GoStruct) : Decidable (layoutMatches main other) := by
  unfold layoutMatches; infer_instance

/-! The discriminator guard and the cast operations of
`example_sumtypes_test.go`.  Since every view aliases the same storage,
`sumtype.Cast` is the identity on the record; an operation returns the pair
(result, post-state of the storage). -/

/-- Panic message of `ensureKind` when the discriminator is nil. -/
def absentMsg (k : ShapeKind) : String :=
  "can't cast shape from Kind=nil to Kind=" ++ k

/-- Panic message of `ensureKind` when the stored discriminator `actual`
differs from the requested `expected`. -/
def mismatchMsg (actual expected : ShapeKind) : String :=
  "can't cast shape from Kind=" ++ actual ++ " to Kind=" ++ expected

/-- `shapeCaster.ensureKind`: nil check then equality check on the stored
discriminator; `some msg` is the panic raised, `none` is success. -/
def ensureKind (s : ShapeRec) (k : ShapeKind) : Option String :=
  match s.kind with
  | none => some (absentMsg k)
  | some actual => if actual = k then none else some (mismatchMsg actual k)

/-- `shapeCaster.Shape`: unconditional `sumtype.Cast[Shape]`, an alias of the
same storage; never panics, never writes. -/
def shapeView (s : ShapeRec) : GoResult ShapeRec × ShapeRec := (.ok s, s)

/-- `Caster.Json` (via `shapeCaster.json`): unconditional cast to the
canonical `shape` view of the same storage. -/
def jsonView (s : ShapeRec) : GoResult ShapeRec × ShapeRec := (.ok s, s)

/-- `shapeCaster.Circle`: `ensureKind(CircleShapeKind)` then
`sumtype.Cast[CircleShape]` of the same storage. -/
def circleView (s : ShapeRec) : GoResult ShapeRec × ShapeRec :=
  match ensureKind s circleKind with
  | some m => (.panicked m, s)
  | none => (.ok s, s)

/-- `shapeCaster.Rectangle`: `ensureKind(RectangleShapeKind)` then
`sumtype.Cast[RectangleShape]` of the same storage. -/
def rectangleView (s : ShapeRec) : GoResult ShapeRec × ShapeRec :=
  match ensureKind s rectangleKind with
  | some m => (.panicked m, s)
  | none => (.ok s, s)

/-- Zeroing of the storage field at position `i` of the `shape` layout
(position 0 is the zero-size caster marker; zeroing it is a no-op). -/
def zeroFieldAt (s : ShapeRec) (i : Nat) : ShapeRec :=
  if i = 1 then { s with color := none }
  else if i = 2 then { s with kind := none }
  else if i = 3 then { s with radius := none }
  else if i = 4 then { s with width := none }
  else if i = 5 then { s with height := none }
  else s

/-- `reflect.Value.CanSet` for field `i` of the canonical `shape` value: the
field must be exported (all are, except the caster marker at position 0). -/
def canSetAt (i : Nat) : Bool := (shapeTy.fields.getD i dfltField).exported

/-- The loop body of `Caster.ZeroNonKindFields`: walk the kind-struct's
fields; at every position whose field is unexported in the kind struct and
settable in the canonical struct, zero the storage. -/
def zeroLoop : List GoField → Nat → ShapeRec → ShapeRec
  | [], _, s => s
  | f :: fs, i, s =>
    zeroLoop fs (i + 1) (if !f.exported && canSetAt i then zeroFieldAt s i else s)

/-- `Caster.ZeroNonKindFields`, with `kindStruct` the layout metadata of the
struct supplied as `ptrToKindStruct`. -/
def zeroNonKindFields (kindStruct : GoStruct) (s : ShapeRec) : ShapeRec :=
  zeroLoop kindStruct.fields 0 s

/-- Go's panic message for a write through a nil pointer. -/
def nilDerefMsg : String :=
  "runtime error: invalid memory address or nil pointer dereference"

/-- `shapeCaster.SetCircle`: cast to `Shape`, write the tag through the
`Kind` pointer (a nil-pointer dereference when `Kind` is nil), scrub via
`ZeroNonKindFields` with the `Shape` layout (the code passes `s *Shape`,
not the circle view), then return `s.Circle()`. -/
def setCircle (s : ShapeRec) : GoResult ShapeRec × ShapeRec :=
  match s.kind with
  | none => (.panicked nilDerefMsg, s)
  | some _ => circleView (zeroNonKindFields ShapeTy { s with kind := some circleKind })

/-- `shapeCaster.SetRectangle`: the same switch with the rectangle tag. -/
def setRectangle (s : ShapeRec) : GoResult ShapeRec × ShapeRec :=
  match s.kind with
  | none => (.panicked nilDerefMsg, s)
  | some _ => rectangleView (zeroNonKindFields ShapeTy { s with kind := some rectangleKind })

/-- Storage populated as a circle with color `c` and radius `r`. -/
def circleRec (c : String) (r : Int) : ShapeRec :=
  ⟨some c, some circleKind, some r, none, none⟩

/-- Storage populated as a rectangle with color `c`, width `w`, height `h`. -/
def rectangleRec (c : String) (w h : Int) : ShapeRec :=
  ⟨some c, some rectangleKind, none, some w, some h⟩

/-! The JSON codec.  Modelled from the spec: the concrete text
encoder/decoder (`encoding/json/v2`) is outside the repository; the spec's
JSON-Adapter contract specifies declaration-order field emission, omission of
absent fields, unknown keys ignored on parse, the discriminator set as-is
(no scrub), and parse failures surfaced as errors without mutating the
target.  The wire values used by this record family are strings and
integers; whitespace and the remaining JSON value forms are not modelled. -/

/-- A JSON value of the forms this record family uses. -/
inductive JVal where
  | jstr (s : String)
  | jnum (n : Int)
deriving DecidableEq

/-- JSON string-body escaping: quote and backslash are escaped; control
character escaping is elided. -/
def escapeChars : List Char → List Char
  | [] => []
  | c :: cs => (if c = '"' ∨ c = '\\' then ['\\', c] else [c]) ++ escapeChars cs

/-- Rendering of a JSON string literal. -/
def renderString (s : String) : List Char := '"' :: (escapeChars s.data ++ ['"'])

/-- Rendering of a JSON integer (Go `strconv` decimal form). -/
def renderInt (n : Int) : List Char :=
  if n < 0 then '-' :: toDecChars n.natAbs else toDecChars n.toNat

/-- Rendering of a JSON value. -/
def renderVal : JVal → List Char
  | .jstr s => renderString s
  | .jnum n => renderInt n

/-- Rendering of one `"key":value` object member. -/
def renderMember (m : String × JVal) : List Char :=
  renderString m.1 ++ (':' :: renderVal m.2)

/-- Rendering of an object's member list followed by the closing brace. -/
def renderMembersBody : List (String × JVal) → List Char
  | [] => ['\x7d']
  | [m] => renderMember m ++ ['\x7d']
  | m :: ms => renderMember m ++ (',' :: renderMembersBody ms)

/-- Rendering of a whole JSON object. -/
def renderObj (ms : List (String × JVal)) : String :=
  String.mk ('\x7b' :: renderMembersBody ms)

/-- Whether a character list starts with a decimal digit. -/
def headIsDigit : List Char → Bool
  | [] => false
  | c :: _ => c.isDigit

/-- Accumulating decimal parser: consume leading digit characters. -/
def parseDigits : List Char → Nat → Nat × List Char
  | [], acc => (acc, [])
  | c :: cs, acc =>
    if c.isDigit then parseDigits cs (10 * acc + (c.toNat - 48)) else (acc, c :: cs)

/-- Parser for a JSON integer: optional minus sign, at least one digit. -/
def parseNum (cs : List Char) : Option (Int × List Char) :=
  match cs with
  | [] => none
  | c :: rest =>
    if c = '-' then
      match rest with
      | [] => none
      | d :: _ =>
        if d.isDigit then
          some (-((parseDigits rest 0).1 : Int), (parseDigits rest 0).2)
        else none
    else if c.isDigit then
      some (((parseDigits cs 0).1 : Int), (parseDigits cs 0).2)
    else none

/-- Parser for a JSON string body (after the opening quote), undoing
`escapeChars` and consuming the closing quote. -/
def parseStringBody : List Char → Option (List Char × List Char)
  | [] => none
  | c :: rest =>
    if c = '"' then some ([], rest)
    else if c = '\\' then
      match rest with
      | [] => none
      | e :: rest2 =>
        if e = '"' ∨ e = '\\' then
          (parseStringBody rest2).map (fun p => (e :: p.1, p.2))
        else none
    else (parseStringBody rest).map (fun p => (c :: p.1, p.2))

/-- Parser for a JSON value (string or integer). -/
def parseVal (cs : List Char) : Option (JVal × List Char) :=
  match cs with
  | [] => none
  | c :: rest =>
    if c = '"' then (parseStringBody rest).map (fun p => (JVal.jstr (String.mk p.1), p.2))
    else (parseNum (c :: rest)).map (fun p => (JVal.jnum p.1, p.2))

/-- Parser for a nonempty member sequence terminated by the closing brace;
`fuel` bounds the number of members. -/
def parseMembersF : Nat → List Char → Option (List (String × JVal) × List Char)
  | 0, _ => none
  | fuel + 1, cs =>
    match cs with
    | [] => none
    | c :: rest =>
      if c = '"' then
        match parseStringBody rest with
        | none => none
        | some (k, cs1) =>
          match cs1 with
          | [] => none
          | c1 :: cs2 =>
            if c1 = ':' then
              match parseVal cs2 with
              | none => none
              | some (v, cs3) =>
                match cs3 with
                | [] => none
                | c3 :: cs4 =>
                  if c3 = ',' then
                    match parseMembersF fuel cs4 with
                    | none => none
                    | some (ms, csr) => some ((String.mk k, v) :: ms, csr)
                  else if c3 = '\x7d' then some ([(String.mk k, v)], cs4)
                  else none
            else none
      else none

/-- Parser for a whole JSON object text; the entire input must be consumed. -/
def parseJson (s : String) : Option (List (String × JVal)) :=
  match s.data with
  | [] => none
  | c :: rest =>
    if c = '\x7b' then
      match rest with
      | [] => none
      | d :: rest2 =>
        if d = '\x7d' then (if rest2 = [] then some [] else none)
        else
          match parseMembersF rest.length rest with
          | some (ms, []) => some ms
          | _ => none
    else none

/-- One optional object member: emitted only when the field is non-nil
(`omitempty`). -/
def optMember {α : Type} (k : String) (f : α → JVal) : Option α → List (String × JVal)
  | none => []
  | some v => [(k, f v)]

/-- The members emitted for a record, in the canonical `shape` field
declaration order: color, kind, radius, width, height. -/
def shapeMembers (s : ShapeRec) : List (String × JVal) :=
  optMember "color" JVal.jstr s.color ++ optMember "kind" JVal.jstr s.kind ++
    optMember "radius" JVal.jnum s.radius ++ optMember "width" JVal.jnum s.width ++
    optMember "height" JVal.jnum s.height

/-- `Caster.MarshalJSON` for the canonical record (modelled from the spec's
JSON-Adapter contract). -/
def marshalShape (s : ShapeRec) : String := renderObj (shapeMembers s)

/-- Whether a member key is one of the record's JSON keys. -/
def isKnownKey (k : String) : Bool :=
  k == "color" || k == "kind" || k == "radius" || k == "width" || k == "height"

/-- Application of one parsed member to the record: known keys set the
matching field, the discriminator is set as-is (no scrub), unknown keys are
ignored. -/
def applyMember (s : ShapeRec) (m : String × JVal) : ShapeRec :=
  if m.1 = "color" then
    match m.2 with | .jstr v => { s with color := some v } | _ => s
  else if m.1 = "kind" then
    match m.2 with | .jstr v => { s with kind := some v } | _ => s
  else if m.1 = "radius" then
    match m.2 with | .jnum n => { s with radius := some n } | _ => s
  else if m.1 = "width" then
    match m.2 with | .jnum n => { s with width := some n } | _ => s
  else if m.1 = "height" then
    match m.2 with | .jnum n => { s with height := some n } | _ => s
  else s

/-- Wire-type check for one member: known keys must carry the matching JSON
value form; unknown keys are accepted. -/
def checkMember (m : String × JVal) : Bool :=
  if m.1 = "color" ∨ m.1 = "kind" then
    match m.2 with | .jstr _ => true | _ => false
  else if m.1 = "radius" ∨ m.1 = "width" ∨ m.1 = "height" then
    match m.2 with | .jnum _ => true | _ => false
  else true

/-- Returned error message for malformed JSON text (the concrete stdlib
message is outside the repository). -/
def parseFailMsg : String := "json: invalid JSON text"

/-- Returned error message for a wire value of the wrong form. -/
def typeFailMsg : String := "json: cannot unmarshal value into Go struct field"

/-- `Caster.UnmarshalJSON` for the canonical record (modelled from the spec's
JSON-Adapter contract): parse and validate the whole text first, then merge
the members into the existing record; on failure return an error value with
the record untouched. -/
def unmarshalShape (text : String) (s : ShapeRec) : Option String × ShapeRec :=
  match parseJson text with
  | none => (some parseFailMsg, s)
  | some ms =>
    if ms.all checkMember then (none, ms.foldl applyMember s)
    else (some typeFailMsg, s)

/-- The record produced by a variant switch in the code as written: the new
tag, the shared color preserved, and every variant-specific position (radius,
width, height) zeroed. -/
def switched (s : ShapeRec) (t : ShapeKind) : ShapeRec :=
  ⟨s.color, some t, none, none, none⟩

/-- The panic message a discriminator-guard failure produces for storage `s`
and requested kind `k` (absent or mismatched discriminator). -/
def guardFailMsg (s : ShapeRec) (k : ShapeKind) : String :=
  match s.kind with
  | none => absentMsg k
  | some a => mismatchMsg a k

/-- The wire text of claim C3's opening scenario step. -/
def c3Input : String := "\x7b\"kind\":\"circle\",\"color\":\"red\",\"radius\":1\x7d"

/-- The output text claim C3 predicts (kind key first). -/
def c3Claimed : String :=
  "\x7b\"kind\":\"rectangle\",\"color\":\"red\",\"width\":10,\"height\":20\x7d"

/-- The output text the code produces (declaration order: color first). -/
def c3Actual : String :=
  "\x7b\"color\":\"red\",\"kind\":\"rectangle\",\"width\":10,\"height\":20\x7d"

/-- Storage populated as a circle with radius set, used to exhibit the switch
scrubbing a field the target variant owns. -/
def c1Rec : ShapeRec := ⟨some "red", some circleKind, some 5, none, none⟩

/-! Lemmas: decimal digits and the integer parser. -/

/-- The digit character of `d < 10` is a digit. -/
theorem digitChar_isDigit {d : Nat} (h : d < 10) : (digitChar d).isDigit = true := by
  interval_cases d <;> decide

/-- Digit value of the digit character of `d < 10`. -/
theorem toNat_digitChar {d : Nat} (h : d < 10) : (digitChar d).toNat - 48 = d := by
  interval_cases d <;> decide

/-- A digit character is not the minus sign. -/
theorem isDigit_ne_dash {c : Char} (h : c.isDigit = true) : c ≠ '-' := by
  intro h'; subst h'; exact absurd h (by decide)

/-- A digit character is not a double quote. -/
theorem isDigit_ne_quote {c : Char} (h : c.isDigit = true) : c ≠ '"' := by
  intro h'; subst h'; exact absurd h (by decide)

/-- Every character of a decimal rendering is a digit. -/
theorem toDecCharsAux_digits :
    ∀ fuel n, n < fuel → ∀ c ∈ toDecCharsAux fuel n, c.isDigit = true := by
  intro fuel
  induction fuel with
  | zero => intro n h; omega
  | succ fuel ih =>
    intro n h c hc
    rw [toDecCharsAux] at hc
    by_cases h10 : n < 10
    · rw [if_pos h10] at hc
      simp only [List.mem_singleton] at hc
      subst hc; exact digitChar_isDigit h10
    · rw [if_neg h10] at hc
      rcases List.mem_append.mp hc with h1 | h2
      · exact ih (n / 10) (by omega) c h1
      · simp only [List.mem_singleton] at h2
        subst h2; exact digitChar_isDigit (by omega)

/-- Decimal renderings are nonempty. -/
theorem toDecCharsAux_ne_nil : ∀ fuel n, n < fuel → toDecCharsAux fuel n ≠ [] := by
  intro fuel
  induction fuel with
  | zero => intro n h; omega
  | succ fuel _ =>
    intro n _
    rw [toDecCharsAux]
    by_cases h10 : n < 10
    · rw [if_pos h10]; simp
    · rw [if_neg h10]; simp

/-- Folding the digit-accumulation step over a decimal rendering recovers the
number (shifted by the accumulator). -/
theorem toDecCharsAux_foldl :
    ∀ fuel n, n < fuel → ∀ acc,
      (toDecCharsAux fuel n).foldl (fun a c => 10 * a + (c.toNat - 48)) acc =
        acc * 10 ^ (toDecCharsAux fuel n).length + n := by
  intro fuel
  induction fuel with
  | zero => intro n h; omega
  | succ fuel ih =>
    intro n h acc
    rw [toDecCharsAux]
    by_cases h10 : n < 10
    · rw [if_pos h10]
      simp [toNat_digitChar h10]; omega
    · rw [if_neg h10]
      rw [List.foldl_append]
      have hrec := ih (n / 10) (by omega) acc
      simp only [List.foldl_cons, List.foldl_nil, List.length_append,
        List.length_singleton]
      rw [hrec, toNat_digitChar (show n % 10 < 10 by omega)]
      rw [pow_succ]
      have hdm : 10 * (n / 10) + n % 10 = n := Nat.div_add_mod n 10
      set K := 10 ^ (toDecCharsAux fuel (n / 10)).length
      ring_nf
      omega

/-- Every character of `toDecChars n` is a digit. -/
theorem toDecChars_digits {n : Nat} : ∀ c ∈ toDecChars n, c.isDigit = true :=
  toDecCharsAux_digits (n + 1) n (Nat.lt_succ_self n)

/-- `toDecChars n` is nonempty. -/
theorem toDecChars_ne_nil {n : Nat} : toDecChars n ≠ [] :=
  toDecCharsAux_ne_nil (n + 1) n (Nat.lt_succ_self n)

/-- Folding the digit-accumulation step over `toDecChars n` from zero yields
`n`. -/
theorem toDecChars_foldl {n : Nat} :
    (toDecChars n).foldl (fun a c => 10 * a + (c.toNat - 48)) 0 = n := by
  have := toDecCharsAux_foldl (n + 1) n (Nat.lt_succ_self n) 0
  simpa [toDecChars] using this

/-- `parseDigits` consumes exactly a block of digit characters when the rest
does not start with a digit. -/
theorem parseDigits_of_digits :
    ∀ (ds rest : List Char) (acc : Nat), (∀ c ∈ ds, c.isDigit = true) →
      headIsDigit rest = false →
      parseDigits (ds ++ rest) acc =
        (ds.foldl (fun a c => 10 * a + (c.toNat - 48)) acc, rest) := by
  intro ds
  induction ds with
  | nil =>
    intro rest acc _ hr
    cases rest with
    | nil => simp [parseDigits]
    | cons c cs =>
      simp only [headIsDigit] at hr
      simp [parseDigits, hr]
  | cons c cs ih =>
    intro rest acc hd hr
    have hc : c.isDigit = true := hd c (List.mem_cons_self c cs)
    simp only [List.cons_append, parseDigits, hc, if_pos]
    exact ih rest _ (fun x hx => hd x (List.mem_cons_of_mem c hx)) hr

/-- `String.mk` of a string's character data is the string itself. -/
theorem string_mk_data (s : String) : String.mk s.data = s := by cases s; rfl

/-- An integer rendering is nonempty. -/
theorem renderInt_ne_nil {n : Int} : renderInt n ≠ [] := by
  unfold renderInt
  by_cases h : n < 0
  · rw [if_pos h]; simp
  · rw [if_neg h]; exact toDecChars_ne_nil

/-- The integer parser inverts the integer renderer when the rest does not
start with a digit. -/
theorem parseNum_renderInt (n : Int) (rest : List Char)
    (hr : headIsDigit rest = false) :
    parseNum (renderInt n ++ rest) = some (n, rest) := by
  by_cases h : n < 0
  · have hmk : renderInt n = '-' :: toDecChars n.natAbs := by
      unfold renderInt; rw [if_pos h]
    rw [hmk]
    cases hC : toDecChars n.natAbs with
    | nil => exact absurd hC toDecChars_ne_nil
    | cons a as =>
      have ha : a.isDigit = true := by
        apply toDecChars_digits
        rw [hC]; exact List.mem_cons_self a as
      simp only [List.cons_append, parseNum, if_pos, reduceIte, ha]
      have hp : parseDigits (toDecChars n.natAbs ++ rest) 0 = (n.natAbs, rest) := by
        rw [parseDigits_of_digits _ _ _ (fun c hc => toDecChars_digits c hc) hr]
        rw [toDecChars_foldl]
      rw [hC] at hp
      rw [List.cons_append] at hp
      rw [hp]
      simp only [Option.some.injEq, Prod.mk.injEq]
      exact ⟨by omega, trivial⟩
  · have hmk : renderInt n = toDecChars n.toNat := by
      unfold renderInt; rw [if_neg h]
    rw [hmk]
    cases hC : toDecChars n.toNat with
    | nil => exact absurd hC toDecChars_ne_nil
    | cons a as =>
      have ha : a.isDigit = true := by
        apply toDecChars_digits
        rw [hC]; exact List.mem_cons_self a as
      have had : a ≠ '-' := isDigit_ne_dash ha
      simp only [List.cons_append, parseNum, had, reduceIte, ha, if_pos]
      have hp : parseDigits (toDecChars n.toNat ++ rest) 0 = (n.toNat, rest) := by
        rw [parseDigits_of_digits _ _ _ (fun c hc => toDecChars_digits c hc) hr]
        rw [toDecChars_foldl]
      rw [hC] at hp
      rw [List.cons_append] at hp
      rw [hp]
      simp only [Option.some.injEq, Prod.mk.injEq]
      exact ⟨by omega, trivial⟩


/-- Step of the string-body parser at the closing quote. -/
theorem parseStringBody_quote (rest : List Char) :
    parseStringBody ('"' :: rest) = some ([], rest) := by
  cases rest <;> simp [parseStringBody]

/-- Step of the string-body parser at an escape sequence. -/
theorem parseStringBody_esc (e : Char) (he : e = '"' ∨ e = '\\') (rest : List Char) :
    parseStringBody ('\\' :: e :: rest) =
      (parseStringBody rest).map (fun p => (e :: p.1, p.2)) := by
  simp [parseStringBody, he]

/-- Step of the string-body parser at an ordinary character. -/
theorem parseStringBody_other (c : Char) (h1 : c ≠ '"') (h2 : c ≠ '\\')
    (rest : List Char) :
    parseStringBody (c :: rest) = (parseStringBody rest).map (fun p => (c :: p.1, p.2)) := by
  cases rest <;> simp [parseStringBody, h1, h2]

/-- The string-body parser inverts the escaper, consuming the closing
quote. -/
theorem parseStringBody_escape :
    ∀ (s rest : List Char),
      parseStringBody (escapeChars s ++ ('"' :: rest)) = some (s, rest) := by
  intro s
  induction s with
  | nil =>
    intro rest
    simp only [escapeChars, List.nil_append]
    exact parseStringBody_quote rest
  | cons c cs ih =>
    intro rest
    by_cases hc : c = '"' ∨ c = '\\'
    · have hesc : escapeChars (c :: cs) = '\\' :: c :: escapeChars cs := by
        rw [escapeChars, if_pos hc]; rfl
      rw [hesc, List.cons_append, List.cons_append]
      rw [parseStringBody_esc c hc]
      rw [ih rest]
      rfl
    · push_neg at hc
      have hesc : escapeChars (c :: cs) = c :: escapeChars cs := by
        rw [escapeChars, if_neg (by tauto)]; rfl
      rw [hesc, List.cons_append]
      rw [parseStringBody_other c hc.1 hc.2]
      rw [ih rest]
      rfl

/-- The first character of an integer rendering is a minus sign or a digit,
never a quote. -/
theorem renderInt_head_ne_quote {n : Int} {a : Char} {as : List Char}
    (hC : renderInt n = a :: as) : a ≠ '"' := by
  by_cases h : n < 0
  · have hmk : renderInt n = '-' :: toDecChars n.natAbs := by
      unfold renderInt; rw [if_pos h]
    rw [hmk] at hC
    injection hC with h1 _
    rw [← h1]; decide
  · have hmk : renderInt n = toDecChars n.toNat := by
      unfold renderInt; rw [if_neg h]
    rw [hmk] at hC
    have ha : a.isDigit = true := by
      apply toDecChars_digits
      rw [hC]; exact List.mem_cons_self a as
    exact isDigit_ne_quote ha

/-- The value parser inverts the value renderer when the rest does not start
with a digit. -/
theorem parseVal_render (v : JVal) (rest : List Char)
    (hr : headIsDigit rest = false) :
    parseVal (renderVal v ++ rest) = some (v, rest) := by
  cases v with
  | jstr s =>
    simp only [renderVal, renderString, List.cons_append, List.append_assoc,
      List.singleton_append]
    simp only [parseVal, if_pos]
    rw [parseStringBody_escape]
    simp [string_mk_data]
  | jnum n =>
    simp only [renderVal]
    cases hC : renderInt n with
    | nil => exact absurd hC renderInt_ne_nil
    | cons a as =>
      have ha : a ≠ '"' := renderInt_head_ne_quote hC
      rw [List.cons_append]
      simp only [parseVal]
      rw [if_neg ha]
      rw [← List.cons_append, ← hC]
      rw [parseNum_renderInt n rest hr]
      rfl

/-- A rendered member list is at least as long (in characters) as its member
count. -/
theorem renderMembersBody_length :
    ∀ ms : List (String × JVal), ms.length ≤ (renderMembersBody ms).length := by
  intro ms
  induction ms with
  | nil => simp [renderMembersBody]
  | cons m ms ih =>
    cases ms with
    | nil => simp [renderMembersBody]
    | cons m2 ms2 =>
      have hb : renderMembersBody (m :: m2 :: ms2) =
          renderMember m ++ (',' :: renderMembersBody (m2 :: ms2)) := rfl
      rw [hb]
      simp only [List.length_append, List.length_cons]
      simp only [List.length_cons] at ih
      omega

/-- The member parser inverts the member renderer given enough fuel. -/
theorem parseMembersF_render :
    ∀ (ms : List (String × JVal)) (fuel : Nat), ms ≠ [] → ms.length ≤ fuel →
      parseMembersF fuel (renderMembersBody ms) = some (ms, []) := by
  intro ms
  induction ms with
  | nil => intro fuel h _; exact absurd rfl h
  | cons m ms ih =>
    intro fuel _ hlen
    obtain ⟨k, v⟩ := m
    cases fuel with
    | zero => simp at hlen
    | succ fuel =>
      cases ms with
      | nil =>
        simp only [renderMembersBody, renderMember, renderString, List.cons_append,
          List.append_assoc, List.singleton_append, List.nil_append]
        simp only [parseMembersF, reduceIte]
        rw [parseStringBody_escape]
        simp only [reduceIte]
        rw [parseVal_render v _ (by decide)]
        simp [string_mk_data]
      | cons m2 ms2 =>
        have hne : (m2 :: ms2 : List (String × JVal)) ≠ [] := by simp
        have hlen2 : (m2 :: ms2 : List (String × JVal)).length ≤ fuel := by
          simp only [List.length_cons] at hlen ⊢; omega
        have hb : renderMembersBody ((k, v) :: m2 :: ms2) =
            renderMember (k, v) ++ (',' :: renderMembersBody (m2 :: ms2)) := rfl
        rw [hb]
        simp only [renderMember, renderString, List.cons_append,
          List.append_assoc, List.singleton_append, List.nil_append]
        simp only [parseMembersF, reduceIte]
        rw [parseStringBody_escape]
        simp only [reduceIte]
        rw [parseVal_render v (',' :: renderMembersBody (m2 :: ms2)) rfl]
        simp only [Option.map_some]
        rw [ih fuel hne hlen2]
        simp [string_mk_data]

/-- The object parser inverts the object renderer. -/
theorem parseJson_render (ms : List (String × JVal)) :
    parseJson (renderObj ms) = some ms := by
  cases ms with
  | nil => decide
  | cons m ms2 =>
    obtain ⟨k, v⟩ := m
    obtain ⟨X, hX⟩ : ∃ X, renderMembersBody ((k, v) :: ms2) = '"' :: X := by
      cases ms2 with
      | nil => exact ⟨_, rfl⟩
      | cons m2 ms3 => exact ⟨_, rfl⟩
    have hfuel : ((k, v) :: ms2).length ≤ (renderMembersBody ((k, v) :: ms2)).length :=
      renderMembersBody_length _
    have hparse : parseMembersF (renderMembersBody ((k, v) :: ms2)).length
        (renderMembersBody ((k, v) :: ms2)) = some ((k, v) :: ms2, []) :=
      parseMembersF_render _ _ (by simp) hfuel
    have hdata : (renderObj ((k, v) :: ms2)).data =
        '\x7b' :: renderMembersBody ((k, v) :: ms2) := rfl
    unfold parseJson
    rw [hdata, hX]
    simp only [reduceIte]
    rw [← hX, hparse]
    simp

/-! Lemmas: the layout validator. -/

/-- The field-pair loop succeeds exactly when the field types of equal-length
lists agree at every position. -/
theorem checkFieldPairs_none_iff (mname oname : String) :
    ∀ (as bs : List GoField) (kk : Nat), as.length = bs.length →
      (checkFieldPairs mname oname kk as bs = none ↔
        ∀ i, i < as.length →
          (as.getD i dfltField).ty = (bs.getD i dfltField).ty) := by
  intro as
  induction as with
  | nil => intro bs kk _; simp [checkFieldPairs]
  | cons a as ih =>
    intro bs kk h
    cases bs with
    | nil => simp at h
    | cons b bs =>
      simp only [List.length_cons] at h
      rw [checkFieldPairs]
      by_cases hab : a.ty = b.ty
      · rw [if_pos hab, ih bs (kk + 1) (by omega)]
        constructor
        · intro hall i hi
          cases i with
          | zero => simpa using hab
          | succ i =>
            simp only [List.getD_cons_succ]
            exact hall i (by simpa using hi)
        · intro hall i hi
          have := hall (i + 1) (by simp; omega)
          simpa using this
      · rw [if_neg hab]
        constructor
        · intro hfalse; exact absurd hfalse (by simp)
        · intro hall
          have := hall 0 (by simp)
          simp only [List.getD_cons_zero] at this
          exact absurd this hab

/-- When the field-pair loop fails, the failure names an in-range position
with differing types, and the message is the formatted mismatch text for that
position. -/
theorem checkFieldPairs_some (mname oname : String) :
    ∀ (as bs : List GoField) (kk : Nat) (msg : String),
      checkFieldPairs mname oname kk as bs = some msg →
      ∃ i, i < as.length ∧ i < bs.length ∧
        (as.getD i dfltField).ty ≠ (bs.getD i dfltField).ty ∧
        msg = fieldErrMsg (kk + i) mname (as.getD i dfltField) oname
          (bs.getD i dfltField) := by
  intro as
  induction as with
  | nil => intro bs kk msg hm; simp [checkFieldPairs] at hm
  | cons a as ih =>
    intro bs kk msg hm
    cases bs with
    | nil => simp [checkFieldPairs] at hm
    | cons b bs =>
      rw [checkFieldPairs] at hm
      by_cases hab : a.ty = b.ty
      · rw [if_pos hab] at hm
        obtain ⟨i, hi1, hi2, hne, hmsg⟩ := ih bs (kk + 1) msg hm
        refine ⟨i + 1, by simpa using hi1, by simp; omega, by simpa using hne, ?_⟩
        rw [hmsg]
        simp only [List.getD_cons_succ]
        congr 1
        omega
      · rw [if_neg hab] at hm
        refine ⟨0, by simp, by simp, by simpa using hab, ?_⟩
        simp only [List.getD_cons_zero, Nat.add_zero]
        exact (Option.some.injEq _ _ ▸ hm.symm)

/-- Validation of one candidate succeeds exactly when the layouts match. -/
theorem validateOne_none_iff (main other : GoStruct) :
    validateOne main other = none ↔ layoutMatches main other := by
  unfold validateOne layoutMatches
  by_cases h : main.fields.length = other.fields.length
  · rw [if_neg (by omega)]
    rw [checkFieldPairs_none_iff main.name other.name main.fields other.fields 0 h]
    exact ⟨fun hp => ⟨h, hp⟩, fun hp => hp.2⟩
  · rw [if_pos h]
    constructor
    · intro hfalse; exact absurd hfalse (by simp)
    · intro hp; exact absurd hp.1 h

/-- When validation of one candidate fails, the message is the count-mismatch
text or the field-mismatch text for an actual divergence. -/
theorem validateOne_some (main other : GoStruct) (msg : String)
    (hm : validateOne main other = some msg) :
    (main.fields.length ≠ other.fields.length ∧ msg = countErrMsg main other) ∨
    (∃ i, i < main.fields.length ∧ i < other.fields.length ∧
      (main.fields.getD i dfltField).ty ≠ (other.fields.getD i dfltField).ty ∧
      msg = fieldErrMsg i main.name (main.fields.getD i dfltField) other.name
        (other.fields.getD i dfltField)) := by
  unfold validateOne at hm
  by_cases h : main.fields.length ≠ other.fields.length
  · rw [if_pos h] at hm
    exact Or.inl ⟨h, (Option.some.injEq _ _ ▸ hm.symm)⟩
  · rw [if_neg h] at hm
    obtain ⟨i, hi1, hi2, hne, hmsg⟩ :=
      checkFieldPairs_some main.name other.name main.fields other.fields 0 msg hm
    exact Or.inr ⟨i, hi1, hi2, hne, by simpa using hmsg⟩

/-- Validation of the whole list succeeds exactly when every candidate
passes. -/
theorem validateList_none_iff (main : GoStruct) :
    ∀ os : List GoStruct,
      (validateList main os = none ↔ ∀ o ∈ os, validateOne main o = none) := by
  intro os
  induction os with
  | nil => simp [validateList]
  | cons o os ih =>
    rw [validateList]
    cases ho : validateOne main o with
    | some e =>
      simp only [List.mem_cons]
      constructor
      · intro hfalse; exact absurd hfalse (by simp)
      · intro hall
        have := hall o (Or.inl rfl)
        rw [ho] at this; exact absurd this (by simp)
    | none =>
      rw [ih]
      constructor
      · intro hall o2 ho2
        rcases List.mem_cons.mp ho2 with rfl | hmem
        · exact ho
        · exact hall o2 hmem
      · intro hall o2 ho2
        exact hall o2 (List.mem_cons_of_mem o ho2)

/-- When validation of the list fails, some listed candidate produced exactly
that failure. -/
theorem validateList_some (main : GoStruct) :
    ∀ (os : List GoStruct) (msg : String), validateList main os = some msg →
      ∃ o ∈ os, validateOne main o = some msg := by
  intro os
  induction os with
  | nil => intro msg hm; simp [validateList] at hm
  | cons o os ih =>
    intro msg hm
    rw [validateList] at hm
    cases ho : validateOne main o with
    | some e =>
      rw [ho] at hm
      simp only [Option.some.injEq] at hm
      exact ⟨o, List.mem_cons_self o os, by rw [ho, hm]⟩
    | none =>
      rw [ho] at hm
      obtain ⟨o2, hmem, h2⟩ := ih msg hm
      exact ⟨o2, List.mem_cons_of_mem o hmem, h2⟩

/-- Scrubbing with the `Shape` layout zeroes exactly the three
variant-specific positions. -/
theorem zeroNonKindFields_ShapeTy (s : ShapeRec) :
    zeroNonKindFields ShapeTy s = ⟨s.color, s.kind, none, none, none⟩ := by
  cases s; rfl

/-! Claim theorems. -/

/-- Claim C1, counterexample: the claim says a variant switch leaves every
field the target variant owns unchanged.  On storage holding a circle with
Radius 5, `SetCircle` — which scrubs with the common `Shape` layout, not the
target variant's — zeroes Radius, a field `CircleShape` owns. -/
theorem sumtype_C1_counterexample :
    (setCircle c1Rec).2.radius = none ∧ c1Rec.radius = some 5 := by decide

/-- Claim C1, amended: for every record whose discriminator is set, the
variant switch (`SetCircle` / `SetRectangle`) sets the discriminator to the
target's tag, zeroes every variant-specific position — the positions blank in
the common `Shape` view, including those the target variant owns — leaves the
shared Color unchanged, and returns a view of the same (updated) storage as
the target variant's type. -/
theorem sumtype_C1_amended (s : ShapeRec) (k : ShapeKind) (h : s.kind = some k) :
    setCircle s = (GoResult.ok (switched s circleKind), switched s circleKind) ∧
    setRectangle s = (GoResult.ok (switched s rectangleKind), switched s rectangleKind) := by
  obtain ⟨c0, k0, r0, w0, h0⟩ := s
  simp only [ShapeRec.kind] at h
  subst h
  exact ⟨rfl, rfl⟩

/-- Claim C1, witness: the amended switch behaviour at the concrete circle
record. -/
theorem sumtype_C1_witness :
    setCircle c1Rec = (GoResult.ok (switched c1Rec circleKind), switched c1Rec circleKind) :=
  (sumtype_C1_amended c1Rec circleKind rfl).1

/-- Claim C2: the guarded reads `Circle()` and `Rectangle()` fail with the
discriminator-not-set message when the discriminator is nil; fail with the
wrong-variant message carrying the actual and expected tags when it is set to
a different tag; otherwise return the same storage reinterpreted as the
requested variant; and a successful guarded read implies the stored
discriminator equals the requested tag. -/
theorem sumtype_C2 (s : ShapeRec) :
    (s.kind = none →
      circleView s = (GoResult.panicked (absentMsg circleKind), s) ∧
      rectangleView s = (GoResult.panicked (absentMsg rectangleKind), s)) ∧
    (∀ a, s.kind = some a → a ≠ circleKind →
      circleView s = (GoResult.panicked (mismatchMsg a circleKind), s)) ∧
    (∀ a, s.kind = some a → a ≠ rectangleKind →
      rectangleView s = (GoResult.panicked (mismatchMsg a rectangleKind), s)) ∧
    (s.kind = some circleKind → circleView s = (GoResult.ok s, s)) ∧
    (s.kind = some rectangleKind → rectangleView s = (GoResult.ok s, s)) ∧
    (∀ v, (circleView s).1 = GoResult.ok v → s.kind = some circleKind ∧ v = s) ∧
    (∀ v, (rectangleView s).1 = GoResult.ok v → s.kind = some rectangleKind ∧ v = s) := by
  refine ⟨?_, ?_, ?_, ?_, ?_, ?_, ?_⟩
  · intro h
    constructor <;> simp [circleView, rectangleView, ensureKind, h]
  · intro a ha hne
    simp [circleView, ensureKind, ha, hne]
  · intro a ha hne
    simp [rectangleView, ensureKind, ha, hne]
  · intro h
    simp [circleView, ensureKind, h]
  · intro h
    simp [rectangleView, ensureKind, h]
  · intro v hv
    cases hk : s.kind with
    | none => simp [circleView, ensureKind, hk] at hv
    | some a =>
      by_cases ha : a = circleKind
      · subst ha
        simp [circleView, ensureKind, hk] at hv
        exact ⟨rfl, hv.symm⟩
      · simp [circleView, ensureKind, hk, ha] at hv
  · intro v hv
    cases hk : s.kind with
    | none => simp [rectangleView, ensureKind, hk] at hv
    | some a =>
      by_cases ha : a = rectangleKind
      · subst ha
        simp [rectangleView, ensureKind, hk] at hv
        exact ⟨rfl, hv.symm⟩
      · simp [rectangleView, ensureKind, hk, ha] at hv

/-- Claim C2, witness: reading a discriminator-less record as a circle fails
with the absent-discriminator message. -/
theorem sumtype_C2_witness :
    circleView freshShape = (GoResult.panicked (absentMsg circleKind), freshShape) :=
  ((sumtype_C2 freshShape).1 rfl).1

/-- Claim C6, counterexample: the claim says a guard failure is surfaced as
an ordinary value-level error returned to the caller, not a panic.  On a
record with no discriminator, `Circle()` panics (through `ensureKind`). -/
theorem sumtype_C6_counterexample :
    (circleView freshShape).1 =
      GoResult.panicked "can't cast shape from Kind=nil to Kind=circle" := by decide

/-- Claim C6, amended: a discriminator-guard failure is surfaced as a panic
carrying a message naming the stored and requested kinds — not as a returned
error value — and the guard never produces a wrong-but-successful cast: a
successful read implies the stored discriminator equals the requested tag. -/
theorem sumtype_C6_amended (s : ShapeRec) :
    (∀ v, (circleView s).1 = GoResult.ok v → s.kind = some circleKind ∧ v = s) ∧
    (s.kind ≠ some circleKind →
      (circleView s).1 = GoResult.panicked (guardFailMsg s circleKind)) ∧
    (∀ v, (rectangleView s).1 = GoResult.ok v → s.kind = some rectangleKind ∧ v = s) ∧
    (s.kind ≠ some rectangleKind →
      (rectangleView s).1 = GoResult.panicked (guardFailMsg s rectangleKind)) := by
  refine ⟨?_, ?_, ?_, ?_⟩
  · intro v hv
    cases hk : s.kind with
    | none => simp [circleView, ensureKind, hk] at hv
    | some a =>
      by_cases ha : a = circleKind
      · subst ha
        simp [circleView, ensureKind, hk] at hv
        exact ⟨rfl, hv.symm⟩
      · simp [circleView, ensureKind, hk, ha] at hv
  · intro hne
    cases hk : s.kind with
    | none => simp [circleView, ensureKind, guardFailMsg, hk]
    | some a =>
      have ha : a ≠ circleKind := by intro e; subst e; exact hne hk
      simp [circleView, ensureKind, guardFailMsg, hk, ha]
  · intro v hv
    cases hk : s.kind with
    | none => simp [rectangleView, ensureKind, hk] at hv
    | some a =>
      by_cases ha : a = rectangleKind
      · subst ha
        simp [rectangleView, ensureKind, hk] at hv
        exact ⟨rfl, hv.symm⟩
      · simp [rectangleView, ensureKind, hk, ha] at hv
  · intro hne
    cases hk : s.kind with
    | none => simp [rectangleView, ensureKind, guardFailMsg, hk]
    | some a =>
      have ha : a ≠ rectangleKind := by intro e; subst e; exact hne hk
      simp [rectangleView, ensureKind, guardFailMsg, hk, ha]

/-- Claim C6, witness: reading a record holding an unknown kind as a circle
panics with the guard-failure message. -/
theorem sumtype_C6_witness :
    (circleView ⟨none, some "triangle", none, none, none⟩).1 =
      GoResult.panicked
        (guardFailMsg ⟨none, some "triangle", none, none, none⟩ circleKind) :=
  (sumtype_C6_amended ⟨none, some "triangle", none, none, none⟩).2.1 (by decide)

/-- Claim C9: on a record whose discriminator pointer is nil, `SetCircle`
and `SetRectangle` do not set the discriminator: the write `*s.Kind = tag`
dereferences the nil pointer and panics, leaving the storage unchanged. -/
theorem sumtype_C9 (s : ShapeRec) (h : s.kind = none) :
    setCircle s = (GoResult.panicked nilDerefMsg, s) ∧
    setRectangle s = (GoResult.panicked nilDerefMsg, s) := by
  constructor <;> simp [setCircle, setRectangle, h]

/-- Claim C9, witness: switching a fresh (discriminator-less) record panics
with the nil-dereference message and leaves it unchanged. -/
theorem sumtype_C9_witness :
    setCircle freshShape = (GoResult.panicked nilDerefMsg, freshShape) :=
  (sumtype_C9 freshShape rfl).1

/-- Claim C10: the cast/read operations `Shape()`, `Json()`, `Circle()` and
`Rectangle()` never modify the stored record — including on the failing
(panicking) guard paths — and the unconditional casts return the same
storage. -/
theorem sumtype_C10 (s : ShapeRec) :
    (shapeView s).2 = s ∧ (jsonView s).2 = s ∧ (circleView s).2 = s ∧
    (rectangleView s).2 = s ∧ (shapeView s).1 = GoResult.ok s ∧
    (jsonView s).1 = GoResult.ok s := by
  refine ⟨rfl, rfl, ?_, ?_, rfl, rfl⟩
  · cases h : ensureKind s circleKind <;> simp [circleView, h]
  · cases h : ensureKind s rectangleKind <;> simp [rectangleView, h]

/-- Claim C3, counterexample: running the claim's scenario (decode the circle
text, switch to rectangle, set width 10 and height 20, encode) does not yield
the claimed text with the `kind` key first: the encoder emits keys in the
canonical `shape` declaration order, which puts `color` before `kind`. -/
theorem sumtype_C3_counterexample :
    marshalShape { (setRectangle (unmarshalShape c3Input freshShape).2).2 with
      width := some 10, height := some 20 } ≠ c3Claimed := by decide

/-- Claim C3, amended: decoding the circle text yields discriminator circle,
color red, radius 1, width and height absent; switching to rectangle yields
discriminator rectangle with color preserved and radius, width, height
absent; and after setting width 10 and height 20 the encoding is exactly the
object with keys in declaration order — color, kind, width, height — with no
radius key. -/
theorem sumtype_C3_amended :
    unmarshalShape c3Input freshShape =
      (none, ⟨some "red", some "circle", some 1, none, none⟩) ∧
    setRectangle ⟨some "red", some "circle", some 1, none, none⟩ =
      (GoResult.ok ⟨some "red", some "rectangle", none, none, none⟩,
        ⟨some "red", some "rectangle", none, none, none⟩) ∧
    marshalShape ⟨some "red", some "rectangle", none, some 10, some 20⟩ = c3Actual := by
  decide

/-- Claim C4: layout validation succeeds exactly when the canonical type's
first field is interconvertible with the caster marker type and every
supplied variant has the same field count and identical field type at every
position; on failure the returned message names the offending type and, for a
field mismatch, the field index and both type renderings (or the two field
counts); with `panicOnError` the error becomes a panic, without it the error
is returned. -/
theorem sumtype_C4 (ct : GoType) (main : GoStruct) (others : List GoStruct)
    (f0 : GoField) (fs : List GoField) (h : main.fields = f0 :: fs) :
    (validateStructFields ct main others = .ok none ↔
      (convertibleBoth f0.ty ct = true ∧ ∀ o ∈ others, layoutMatches main o)) ∧
    (∀ msg, validateStructFields ct main others = .ok (some msg) →
      (convertibleBoth f0.ty ct = false ∧ msg = firstFieldErrMsg main ct) ∨
      (∃ o ∈ others, main.fields.length ≠ o.fields.length ∧ msg = countErrMsg main o) ∨
      (∃ o ∈ others, ∃ i, i < main.fields.length ∧ i < o.fields.length ∧
        (main.fields.getD i dfltField).ty ≠ (o.fields.getD i dfltField).ty ∧
        msg = fieldErrMsg i main.name (main.fields.getD i dfltField) o.name
          (o.fields.getD i dfltField))) ∧
    (∀ msg, validateStructFields ct main others = .ok (some msg) →
      ValidateStructFields true ct main others = .panicked msg) ∧
    (validateStructFields ct main others = .ok none →
      ValidateStructFields true ct main others = .ok none) ∧
    ValidateStructFields false ct main others = validateStructFields ct main others := by
  have hv : validateStructFields ct main others =
      if convertibleBoth f0.ty ct then GoResult.ok (validateList main others)
      else GoResult.ok (some (firstFieldErrMsg main ct)) := by
    unfold validateStructFields
    rw [h]
  refine ⟨?_, ?_, ?_, ?_, ?_⟩
  · rw [hv]
    by_cases hc : convertibleBoth f0.ty ct
    · rw [if_pos hc]
      constructor
      · intro hok
        simp only [GoResult.ok.injEq] at hok
        refine ⟨hc, ?_⟩
        intro o ho
        rw [← validateOne_none_iff]
        exact (validateList_none_iff main others).mp hok o ho
      · intro hp
        have : validateList main others = none := by
          rw [validateList_none_iff]
          intro o ho
          rw [validateOne_none_iff]
          exact hp.2 o ho
        rw [this]
    · rw [if_neg hc]
      constructor
      · intro hfalse
        exact absurd hfalse (by simp)
      · intro hp
        exact absurd hp.1 hc
  · intro msg hm
    rw [hv] at hm
    by_cases hc : convertibleBoth f0.ty ct
    · rw [if_pos hc] at hm
      simp only [GoResult.ok.injEq] at hm
      obtain ⟨o, ho, hone⟩ := validateList_some main others msg hm
      rcases validateOne_some main o msg hone with ⟨hlen, hmsg⟩ | ⟨i, hi1, hi2, hne, hmsg⟩
      · exact Or.inr (Or.inl ⟨o, ho, hlen, hmsg⟩)
      · exact Or.inr (Or.inr ⟨o, ho, i, hi1, hi2, hne, hmsg⟩)
    · rw [if_neg hc] at hm
      simp only [GoResult.ok.injEq, Option.some.injEq] at hm
      exact Or.inl ⟨by simpa using hc, hm.symm⟩
  · intro msg hm
    unfold ValidateStructFields
    rw [hm]
    simp
  · intro hok
    unfold ValidateStructFields
    rw [hok]
    simp
  · unfold ValidateStructFields
    cases hvv : validateStructFields ct main others with
    | ok err => simp
    | panicked m => rfl

/-- Claim C4, witness: the actual shape family — canonical `shape` against
`Shape`, `CircleShape` and `RectangleShape` — passes validation. -/
theorem sumtype_C4_witness :
    validateStructFields goTypeCaster shapeTy [ShapeTy, CircleShapeTy, RectangleShapeTy] =
      .ok none :=
  (sumtype_C4 goTypeCaster shapeTy [ShapeTy, CircleShapeTy, RectangleShapeTy]
    ⟨"shapeCaster", false, goTypeShapeCaster⟩
    [⟨"Color", true, goTypePtrString⟩, ⟨"Kind", true, goTypePtrShapeKind⟩,
     ⟨"Radius", true, goTypePtrInt⟩, ⟨"Width", true, goTypePtrInt⟩,
     ⟨"Height", true, goTypePtrInt⟩] rfl).1.mpr ⟨by decide, by decide⟩

/-- Claim C5: marshaling a record populated as a variant (circle or
rectangle) with its owned and shared fields set, then unmarshaling the text
into a fresh record, reproduces exactly that record: the discriminator is the
variant's tag, owned and shared fields keep their values, and non-owned
positions stay absent. -/
theorem sumtype_C5 (c : String) (r w h : Int) :
    unmarshalShape (marshalShape (circleRec c r)) freshShape = (none, circleRec c r) ∧
    unmarshalShape (marshalShape (rectangleRec c w h)) freshShape =
      (none, rectangleRec c w h) := by
  constructor
  · have hms : shapeMembers (circleRec c r) =
        [("color", JVal.jstr c), ("kind", JVal.jstr circleKind),
         ("radius", JVal.jnum r)] := rfl
    unfold marshalShape unmarshalShape
    rw [hms, parseJson_render]
    simp [checkMember, applyMember, circleRec, circleKind, freshShape]
  · have hms : shapeMembers (rectangleRec c w h) =
        [("color", JVal.jstr c), ("kind", JVal.jstr rectangleKind),
         ("width", JVal.jnum w), ("height", JVal.jnum h)] := rfl
    unfold marshalShape unmarshalShape
    rw [hms, parseJson_render]
    simp [checkMember, applyMember, rectangleRec, rectangleKind, freshShape]

/-- Claim C7: whenever `UnmarshalJSON` returns an error (malformed text or a
wire value of the wrong form), the target record is left exactly as it was —
no partial mutation on failure. -/
theorem sumtype_C7 (text : String) (s : ShapeRec) (msg : String)
    (h : (unmarshalShape text s).1 = some msg) : (unmarshalShape text s).2 = s := by
  unfold unmarshalShape at h ⊢
  cases hp : parseJson text with
  | none => rfl
  | some ms =>
    rw [hp] at h
    by_cases hall : ms.all checkMember
    · simp [hall] at h
    · simp [hall]

/-- Claim C7, witness: unmarshaling the malformed text consisting of a lone
opening brace into a populated circle record errors and leaves it
unchanged. -/
theorem sumtype_C7_witness :
    (unmarshalShape "\x7b" (circleRec "red" 1)).2 = circleRec "red" 1 :=
  sumtype_C7 "\x7b" (circleRec "red" 1) parseFailMsg (by decide)

/-- Claim C8: deserialization ignores unknown keys without error and without
touching the record; a `kind` member sets the discriminator as-is without
clearing any other field (no variant-switch scrub); a well-formed, well-typed
object text decodes without error by merging its members in order; and a text
pairing a circle kind with a width retains the width even though circles do
not own it. -/
theorem sumtype_C8 :
    (∀ (s : ShapeRec) (k : String) (v : JVal), isKnownKey k = false →
      applyMember s (k, v) = s ∧ checkMember (k, v) = true) ∧
    (∀ (s : ShapeRec) (kv : String),
      applyMember s ("kind", JVal.jstr kv) = { s with kind := some kv }) ∧
    (∀ (text : String) (s : ShapeRec) (ms : List (String × JVal)),
      parseJson text = some ms → ms.all checkMember = true →
      unmarshalShape text s = (none, ms.foldl applyMember s)) ∧
    unmarshalShape "\x7b\"kind\":\"circle\",\"width\":5\x7d" freshShape =
      (none, ⟨none, some "circle", none, some 5, none⟩) := by
  refine ⟨?_, ?_, ?_, by decide⟩
  · intro s k v hk
    have h1 : ¬ k = "color" := by
      intro e; rw [e] at hk; exact absurd hk (by decide)
    have h2 : ¬ k = "kind" := by
      intro e; rw [e] at hk; exact absurd hk (by decide)
    have h3 : ¬ k = "radius" := by
      intro e; rw [e] at hk; exact absurd hk (by decide)
    have h4 : ¬ k = "width" := by
      intro e; rw [e] at hk; exact absurd hk (by decide)
    have h5 : ¬ k = "height" := by
      intro e; rw [e] at hk; exact absurd hk (by decide)
    constructor
    · unfold applyMember
      rw [if_neg h1, if_neg h2, if_neg h3, if_neg h4, if_neg h5]
    · unfold checkMember
      rw [if_neg (by tauto), if_neg (by tauto)]
  · intro s kv
    simp [applyMember]
  · intro text s ms hp hall
    unfold unmarshalShape
    rw [hp]
    simp [hall]

/-- Claim C8, witness: an unknown key is ignored without error, and a lone
width member merges into a fresh record without error. -/
theorem sumtype_C8_witness :
    (applyMember freshShape ("junk", JVal.jnum 1) = freshShape ∧
      checkMember ("junk", JVal.jnum 1) = true) ∧
    unmarshalShape "\x7b\"width\":5\x7d" freshShape =
      (none, [("width", JVal.jnum 5)].foldl applyMember freshShape) :=
  ⟨sumtype_C8.1 freshShape "junk" (JVal.jnum 1) (by decide),
    sumtype_C8.2.2.1 "\x7b\"width\":5\x7d" freshShape [("width", JVal.jnum 5)]
      (by decide) (by decide)⟩
